import Mathlib

/-!
# swarm-viz — state-synchronization pipeline, shallow embedding

This file embeds the core of the swarm-viz server in Lean 4 and proves
properties of it: the row/protocol mappers (`mapMergeEntry`, `toAgent`,
`toAgentMessage`, `toVizMergeEntry`, `computeMetrics`), the per-connection
delta engine (`agentKey`, `metricsKey`, `initClientState`, `computeUpdates`),
the live events query (`liveQueryNewEvents`), the discovery manager
(`projectsKey`, `DiscoveryManager.scan`) and the mode manager
(`ModeManager` constructor, `switchToLive`).

Modelling conventions:
* JavaScript numbers that hold integral values (ids, token counts, depths)
  are `Nat`/`Int`; fractional values (costs, rates) are `Rat`.
* Epoch-millisecond timestamps are `Nat`.  `new Date(str).getTime()` is
  modelled by `parseDateMs`, which handles the canonical
  `YYYY-MM-DDTHH:MM:SS.mmmZ` form produced by `Date.prototype.toISOString`
  (every timestamp the simulator and the delta engine produce); any other
  input maps to the sentinel `0` (standing in for JavaScript's `NaN`).
  `Date.prototype.toISOString` itself is modelled by `toIsoString`.
* `JSON.parse(x) as string[]` is modelled by `parseStringArray`, a parser
  for JSON arrays of string literals; inputs that are not such an array
  are parse failures.
* JavaScript `Map` (insertion-ordered, `set` keeps the original position
  of an updated key) is modelled by association lists (`alistSet`,
  `alistGet`).
* Side-effecting parts (database handles, sockets, timers) are modelled by
  explicit state passing; "query surfaces" become record fields holding the
  query results/functions a tick observes.
-/

namespace SwarmViz

/-! ## Calendar arithmetic (Howard Hinnant's civil-date algorithms) -/

/-- Days since the Unix epoch of the civil date `y-m-d` (valid for
`y ≥ 1970`, which is all this model needs). -/
def daysFromCivil (y m d : Nat) : Int :=
  let yAdj : Int := if m ≤ 2 then (y : Int) - 1 else (y : Int)
  let era : Int := yAdj / 400
  let yoe : Int := yAdj - era * 400
  let mp : Int := if 2 < m then (m : Int) - 3 else (m : Int) + 9
  let doy : Int := (153 * mp + 2) / 5 + (d : Int) - 1
  let doe : Int := yoe * 365 + yoe / 4 - yoe / 100 + doy
  era * 146097 + doe - 719468

/-- Civil date `(y, m, d)` of a day count since the Unix epoch. -/
def civilFromDays (z : Int) : Int × Int × Int :=
  let z' := z + 719468
  let era := (if 0 ≤ z' then z' else z' - 146096) / 146097
  let doe := z' - era * 146097
  let yoe := (doe - doe / 1460 + doe / 36524 - doe / 146096) / 365
  let y := yoe + era * 400
  let doy := doe - (365 * yoe + yoe / 4 - yoe / 100)
  let mp := (5 * doy + 2) / 153
  let d := doy - (153 * mp + 2) / 5 + 1
  let m := if mp < 10 then mp + 3 else mp - 9
  (if m ≤ 2 then y + 1 else y, m, d)

/-- Numeric value of a decimal digit character. -/
def digitVal (c : Char) : Nat := c.toNat - 48

/-- Whether all characters in the list are decimal digits. -/
def allDigits (l : List Char) : Bool := l.all (·.isDigit)

/-- Value of a list of decimal digit characters, most significant first. -/
def digitsVal (l : List Char) : Nat := l.foldl (fun a c => a * 10 + digitVal c) 0

/-- Model of `new Date(s).getTime()` restricted to the canonical ISO form
`YYYY-MM-DDTHH:MM:SS.mmmZ`; anything else is invalid and maps to `0`
(the model's stand-in for `NaN`).  Dates before 1970 are out of the
model's range and also map to `0`. -/
def parseDateMs (s : String) : Nat :=
  match s.data with
  | [y1, y2, y3, y4, '-', o1, o2, '-', d1, d2, 'T',
     h1, h2, ':', i1, i2, ':', s1, s2, '.', f1, f2, f3, 'Z'] =>
    if allDigits [y1, y2, y3, y4, o1, o2, d1, d2, h1, h2, i1, i2, s1, s2, f1, f2, f3] then
      let y := digitsVal [y1, y2, y3, y4]
      let mo := digitsVal [o1, o2]
      let d := digitsVal [d1, d2]
      let h := digitsVal [h1, h2]
      let mi := digitsVal [i1, i2]
      let se := digitsVal [s1, s2]
      let f := digitsVal [f1, f2, f3]
      if 1970 ≤ y ∧ 1 ≤ mo ∧ mo ≤ 12 ∧ 1 ≤ d ∧ d ≤ 31 ∧ h ≤ 23 ∧ mi ≤ 59 ∧ se ≤ 59 then
        ((daysFromCivil y mo d).toNat * 86400000 + h * 3600000 + mi * 60000 + se * 1000 + f)
      else 0
    else 0
  | _ => 0

/-- Left-pad the decimal representation of `n` with zeros to width `w`. -/
def padNum (n : Nat) (w : Nat) : String :=
  let s := Nat.repr n
  String.mk (List.replicate (w - s.length) '0') ++ s

/-- Model of `new Date(ms).toISOString()` for non-negative epoch
milliseconds. -/
def toIsoString (ms : Nat) : String :=
  let days : Int := (ms : Int) / 86400000
  let rem : Nat := ms % 86400000
  let c := civilFromDays days
  let y := c.1.toNat
  let mo := c.2.1.toNat
  let d := c.2.2.toNat
  let h := rem / 3600000
  let mi := rem / 60000 % 60
  let se := rem / 1000 % 60
  let f := rem % 1000
  padNum y 4 ++ "-" ++ padNum mo 2 ++ "-" ++ padNum d 2 ++ "T" ++
    padNum h 2 ++ ":" ++ padNum mi 2 ++ ":" ++ padNum se 2 ++ "." ++ padNum f 3 ++ "Z"

/-! ## JSON string-array parsing

Model of `JSON.parse(raw) as string[]` in `mapMergeEntry`.  The wider
JSON grammar is irrelevant to the merge-queue field, which holds a JSON
array of file-path strings; any input that is not such an array counts
as a parse failure (`none`). -/

/-- JSON whitespace. -/
def isJsonWs (c : Char) : Bool :=
  c = ' ' || c = '\t' || c = '\n' || c = Char.ofNat 13

/-- Hexadecimal digit value, `none` for non-hex characters. -/
def hexVal (c : Char) : Option Nat :=
  if '0' ≤ c ∧ c ≤ '9' then some (c.toNat - 48)
  else if 'a' ≤ c ∧ c ≤ 'f' then some (c.toNat - 87)
  else if 'A' ≤ c ∧ c ≤ 'F' then some (c.toNat - 55)
  else none

/-- Parse the body of a JSON string literal (the opening quote already
consumed), returning the decoded characters and the rest of the input.
`fuel` bounds recursion; callers pass the input length plus one. -/
def parseStringChars (fuel : Nat) (cs : List Char) (acc : List Char) :
    Option (List Char × List Char) :=
  match fuel, cs with
  | 0, _ => none
  | _, [] => none
  | fuel + 1, c :: rest =>
    if c = '"' then some (acc.reverse, rest)
    else if c = '\\' then
      match rest with
      | [] => none
      | e :: rest2 =>
        if e = '"' then parseStringChars fuel rest2 ('"' :: acc)
        else if e = '\\' then parseStringChars fuel rest2 ('\\' :: acc)
        else if e = '/' then parseStringChars fuel rest2 ('/' :: acc)
        else if e = 'b' then parseStringChars fuel rest2 (Char.ofNat 8 :: acc)
        else if e = 'f' then parseStringChars fuel rest2 (Char.ofNat 12 :: acc)
        else if e = 'n' then parseStringChars fuel rest2 ('\n' :: acc)
        else if e = 'r' then parseStringChars fuel rest2 (Char.ofNat 13 :: acc)
        else if e = 't' then parseStringChars fuel rest2 ('\t' :: acc)
        else if e = 'u' then
          match rest2 with
          | h1 :: h2 :: h3 :: h4 :: rest3 =>
            match hexVal h1, hexVal h2, hexVal h3, hexVal h4 with
            | some v1, some v2, some v3, some v4 =>
              parseStringChars fuel rest3
                (Char.ofNat (((v1 * 16 + v2) * 16 + v3) * 16 + v4) :: acc)
            | _, _, _, _ => none
          | _ => none
        else none
    else if c.toNat < 32 then none
    else parseStringChars fuel rest (c :: acc)

/-- Parse the items of a JSON array of strings, positioned just after the
opening bracket (with at least one item present). -/
def parseItems (fuel : Nat) (cs : List Char) : Option (List String × List Char) :=
  match fuel with
  | 0 => none
  | fuel + 1 =>
    match cs.dropWhile isJsonWs with
    | '"' :: rest =>
      match parseStringChars (rest.length + 1) rest [] with
      | none => none
      | some (chars, rest2) =>
        match rest2.dropWhile isJsonWs with
        | ',' :: rest4 =>
          match parseItems fuel rest4 with
          | some (items, rest5) => some (String.mk chars :: items, rest5)
          | none => none
        | ']' :: rest4 => some ([String.mk chars], rest4)
        | _ => none
    | _ => none

/-- Model of `JSON.parse(s) as string[]`: succeeds iff `s` is a JSON array
of string literals, returning the decoded list. -/
def parseStringArray (s : String) : Option (List String) :=
  match s.data.dropWhile isJsonWs with
  | '[' :: rest =>
    match rest.dropWhile isJsonWs with
    | ']' :: rest2 =>
      if (rest2.dropWhile isJsonWs).isEmpty then some [] else none
    | _ =>
      match parseItems (rest.length + 1) rest with
      | some (items, rest2) =>
        if (rest2.dropWhile isJsonWs).isEmpty then some items else none
      | none => none
  | _ => none

/-! ## Association lists: the model of JavaScript `Map` -/

/-- Model of `Map.get`. -/
def alistGet (m : List (String × α)) (k : String) : Option α :=
  (m.find? (fun e => e.1 = k)).map (·.2)

/-- Model of `Map.set`: updates the first entry with the given key in place (keeping
its position, as JavaScript `Map` does) or appends a new entry. -/
def alistSet (m : List (String × α)) (k : String) (v : α) : List (String × α) :=
  match m with
  | [] => [(k, v)]
  | (k', v') :: rest =>
    if k' = k then (k, v) :: rest else (k', v') :: alistSet rest k v

/-! ## Domain records (src/shared/types.ts shapes used by the pipeline) -/

/-- Server-internal session record (one agent's lifecycle row). -/
structure AgentSession where
  id : String
  agentName : String
  capability : String
  worktreePath : String
  branchName : String
  beadId : String
  tmuxSession : String
  state : String
  pid : Option Int
  parentAgent : Option String
  depth : Int
  runId : Option String
  startedAt : String
  lastActivity : String
  escalationLevel : Int
  stalledSince : Option String
deriving DecidableEq

/-- Server-internal mail record. -/
structure MailMessage where
  id : String
  fromAgent : String
  toAgent : String
  subject : String
  body : String
  type : String
  priority : String
  threadId : Option String
  read : Bool
  createdAt : String
deriving DecidableEq

/-- Server-internal merge-queue record. -/
structure DbMergeQueueEntry where
  id : Int
  branchName : String
  beadId : String
  agentName : String
  filesModified : List String
  enqueuedAt : String
  status : String
  resolvedTier : Option String
deriving DecidableEq

/-- Per-agent cost/usage record from metrics.db. -/
structure MetricsSession where
  agentName : String
  beadId : String
  capability : String
  startedAt : String
  completedAt : Option String
  durationMs : Int
  exitCode : Option Int
  mergeResult : Option String
  parentAgent : Option String
  inputTokens : Nat
  outputTokens : Nat
  cacheReadTokens : Nat
  cacheCreationTokens : Nat
  estimatedCostUsd : Option Rat
  modelUsed : Option String
deriving DecidableEq

/-- Raw merge-queue row as stored in merge-queue.db. -/
structure MergeQueueRow where
  id : Int
  branch_name : String
  bead_id : String
  agent_name : String
  files_modified : String
  enqueued_at : String
  status : String
  resolved_tier : Option String
deriving DecidableEq

/-- Wire-level agent shape (protocol type `Agent`).  `lastActivity` is
epoch milliseconds. -/
structure Agent where
  name : String
  capability : String
  state : String
  parentAgent : Option String
  depth : Int
  beadId : Option String
  lastActivity : Nat
deriving DecidableEq

/-- Wire-level message shape (protocol type `AgentMessage`).  The source's
`from`/`to` fields are named `fromName`/`toName` here because `from` is a
Lean keyword. -/
structure AgentMessage where
  id : String
  fromName : String
  toName : String
  type : String
  priority : String
  subject : String
  createdAt : Nat
deriving DecidableEq

/-- Wire-level merge-queue shape (protocol type `MergeQueueEntry`). -/
structure MergeQueueEntry where
  branchName : String
  agentName : String
  status : String
  filesModified : List String
deriving DecidableEq

/-- Wire-level tool-event payload (protocol type `ToolEventData`). -/
structure ToolEventData where
  agentName : String
  toolName : Option String
  eventType : String
  createdAt : String
deriving DecidableEq

/-- One row of the per-agent cost ledger inside `SwarmMetrics`. -/
structure AgentCostEntry where
  agentName : String
  capability : String
  modelUsed : String
  costUsd : Rat
  inputTokens : Nat
  outputTokens : Nat
  cacheReadTokens : Nat
deriving DecidableEq

/-- Aggregate metrics snapshot (protocol type `SwarmMetrics`). -/
structure SwarmMetrics where
  totalAgents : Nat
  activeAgents : Nat
  totalMessages : Nat
  totalCost : Rat
  totalInputTokens : Nat
  totalOutputTokens : Nat
  totalCacheReadTokens : Nat
  costPerMinute : Rat
  agentCosts : List AgentCostEntry
deriving DecidableEq

/-! ## Row mapper (src/server/mappers.ts) -/

/-- The mapper `mapMergeEntry`: raw merge-queue row to server-internal record.  The
embedded `files_modified` JSON list degrades to `[]` on parse failure;
being a plain Lean function, the mapping is total by construction (the
`try/catch` in the source never lets an error escape). -/
def mapMergeEntry (row : MergeQueueRow) : DbMergeQueueEntry :=
  let filesModified : List String :=
    match parseStringArray row.files_modified with
    | some l => l
    | none => []
  { id := row.id
    branchName := row.branch_name
    beadId := row.bead_id
    agentName := row.agent_name
    filesModified := filesModified
    enqueuedAt := row.enqueued_at
    status := row.status
    resolvedTier := row.resolved_tier }

/-! ## Protocol mapper (src/server/mappers.ts, viz-layer section) -/

/-- The closed set of known capabilities. -/
def KNOWN_CAPABILITIES : List String :=
  ["coordinator", "lead", "scout", "builder", "reviewer", "merger"]

/-- The mapper `toAgent`: server-internal session to wire-level agent.  Unknown
capabilities fall back to `builder`; an empty bead id becomes `null`
(`s.beadId || null`); `lastActivity` is converted to epoch milliseconds. -/
def toAgent (s : AgentSession) : Agent :=
  let cap := if KNOWN_CAPABILITIES.contains s.capability then s.capability else "builder"
  { name := s.agentName
    capability := cap
    state := s.state
    parentAgent := s.parentAgent
    depth := s.depth
    beadId := if s.beadId = "" then none else some s.beadId
    lastActivity := parseDateMs s.lastActivity }

/-- The mapper `toAgentMessage`: server-internal mail record to wire shape. -/
def toAgentMessage (m : MailMessage) : AgentMessage :=
  { id := m.id
    fromName := m.fromAgent
    toName := m.toAgent
    type := m.type
    priority := m.priority
    subject := m.subject
    createdAt := parseDateMs m.createdAt }

/-- The mapper `toVizMergeEntry`: server-internal merge-queue record to wire shape. -/
def toVizMergeEntry (e : DbMergeQueueEntry) : MergeQueueEntry :=
  { branchName := e.branchName
    agentName := e.agentName
    status := e.status
    filesModified := e.filesModified }

/-- Whether `needle` occurs as a contiguous sublist of `hay`. -/
def listIncludes [BEq α] (needle : List α) : List α → Bool
  | [] => needle.isEmpty
  | hay@(_ :: rest) => needle.isPrefixOf hay || listIncludes needle rest

/-- Model of JavaScript `hay.includes(needle)`. -/
def strIncludes (hay needle : String) : Bool :=
  listIncludes needle.data hay.data

/-- The helper `modelShorthand`: shorten a model identifier for display. -/
def modelShorthand (model : Option String) : String :=
  match model with
  | none => ""
  | some model =>
    if model = "" then ""
    else
      let m := model.toLower
      if strIncludes m "opus" then "opus"
      else if strIncludes m "sonnet" then "sonnet"
      else if strIncludes m "haiku" then "haiku"
      else if strIncludes m "gpt-4" then "gpt-4"
      else if strIncludes m "gpt-3" then "gpt-3"
      else model.take 8

/-- One step of the per-agent cost-ledger fold in `computeMetrics` (the
body of its `for` loop over the metrics sessions).  The source's trailing
`if (s.modelUsed) entry.modelUsed = modelShorthand(s.modelUsed)` assigns
the value `entry.modelUsed` already holds, so the net entry is as built
here. -/
def costFoldStep (map : List (String × AgentCostEntry)) (s : MetricsSession) :
    List (String × AgentCostEntry) :=
  let existing := alistGet map s.agentName
  let entry : AgentCostEntry :=
    { agentName := s.agentName
      capability := s.capability
      modelUsed := modelShorthand s.modelUsed
      costUsd := (match existing with | some e => e.costUsd | none => 0) +
        s.estimatedCostUsd.getD 0
      inputTokens := (match existing with | some e => e.inputTokens | none => 0) +
        s.inputTokens
      outputTokens := (match existing with | some e => e.outputTokens | none => 0) +
        s.outputTokens
      cacheReadTokens := (match existing with | some e => e.cacheReadTokens | none => 0) +
        s.cacheReadTokens }
  alistSet map s.agentName entry

/-- The aggregator `computeMetrics`: aggregate `SwarmMetrics` from current state.  A pure
function of its four arguments.  Null `estimatedCostUsd` counts as zero.
The ledger is an insertion-ordered map keyed by agent name; the final
list is sorted descending by cost (`(a, b) => b.costUsd - a.costUsd`, a
stable sort). -/
def computeMetrics (sessions : List AgentSession) (totalMessages : Nat)
    (metricsSessions : List MetricsSession) (costPerMinute : Rat) : SwarmMetrics :=
  let activeAgents :=
    (sessions.filter (fun s => s.state = "working" || s.state = "booting")).length
  let agentCostMap : List (String × AgentCostEntry) :=
    metricsSessions.foldl costFoldStep []
  let agentCosts :=
    (agentCostMap.map (·.2)).insertionSort (fun a b => b.costUsd ≤ a.costUsd)
  let totalCost := agentCosts.foldl (fun sum e => sum + e.costUsd) 0
  let totalInputTokens := agentCosts.foldl (fun sum e => sum + e.inputTokens) 0
  let totalOutputTokens := agentCosts.foldl (fun sum e => sum + e.outputTokens) 0
  let totalCacheReadTokens := agentCosts.foldl (fun sum e => sum + e.cacheReadTokens) 0
  { totalAgents := sessions.length
    activeAgents := activeAgents
    totalMessages := totalMessages
    totalCost := totalCost
    totalInputTokens := totalInputTokens
    totalOutputTokens := totalOutputTokens
    totalCacheReadTokens := totalCacheReadTokens
    costPerMinute := costPerMinute
    agentCosts := agentCosts }

/-! ## Delta-engine fingerprints (src/server/index.ts) -/

/-- Model of `Number.prototype.toFixed` on exact rationals: round to the
nearest multiple of `10 ^ -f` (ties up) and render with exactly `f`
fractional digits. -/
def ratToFixed (q : Rat) (f : Nat) : String :=
  let n : Int := ⌊q * ((10 : Rat) ^ f) + 1 / 2⌋
  let m := n.natAbs
  (if n < 0 then "-" else "") ++ Nat.repr (m / 10 ^ f) ++ "." ++ padNum (m % 10 ^ f) f

/-- The fingerprint `metricsKey`: serialized aggregate-metrics fingerprint. -/
def metricsKey (m : SwarmMetrics) : String :=
  Nat.repr m.totalAgents ++ ":" ++ Nat.repr m.activeAgents ++ ":" ++
    Nat.repr m.totalMessages ++ ":" ++ ratToFixed m.totalCost 6 ++ ":" ++
    ratToFixed m.costPerMinute 4

/-- The fingerprint `agentKey`: per-agent change fingerprint,
`` `${a.state}:${a.lastActivity}:${a.parentAgent ?? ""}` ``. -/
def agentKey (a : Agent) : String :=
  a.state ++ ":" ++ Nat.repr a.lastActivity ++ ":" ++ a.parentAgent.getD ""

/-! ## Live store queries (src/server/index.ts, `openLiveDatabases`) -/

/-- Raw row of the events store. -/
structure ToolEventRow where
  id : Nat
  agent_name : String
  tool_name : Option String
  event_type : String
  created_at : String
deriving DecidableEq

/-- Model of `SELECT MAX(id) FROM events`, with `?? 0` for an empty table: the
initial value of the events closure's internal cursor. -/
def initialMaxEventId (store : List ToolEventRow) : Nat :=
  store.foldl (fun m r => max m r.id) 0

/-- The prepared statement `stmtNewEvents`:
`WHERE id > ? AND event_type IN ('tool_start','mail_sent')
ORDER BY id ASC LIMIT 50`. -/
def stmtNewEventsRows (store : List ToolEventRow) (lastId : Nat) : List ToolEventRow :=
  (((store.insertionSort (fun a b => a.id ≤ b.id)).filter
    (fun r => decide (lastId < r.id) &&
      (r.event_type = "tool_start" || r.event_type = "mail_sent"))).take 50)

/-- The `queryNewEvents` closure.  `lastId` is the closure-internal cursor
(initialized to `initialMaxEventId` when the bundle is opened); the
caller-supplied `sinceId` parameter is ignored by the source
(`_sinceId`).  Returns the mapped events together with the advanced
internal cursor. -/
def liveQueryNewEvents (store : List ToolEventRow) (lastId : Nat) (_sinceId : Nat) :
    List ToolEventData × Nat :=
  let rows := stmtNewEventsRows store lastId
  let newLast := match rows.getLast? with
    | some r => r.id
    | none => lastId
  (rows.map (fun r =>
      { agentName := r.agent_name
        toolName := r.tool_name
        eventType := r.event_type
        createdAt := r.created_at }), newLast)

/-- The prepared statement `stmtMergeQueue` followed by `mapMergeEntry`:
`SELECT * FROM merge_queue WHERE status IN ('pending','merging')
ORDER BY enqueued_at DESC`, each row mapped. -/
def liveQueryMergeQueue (rows : List MergeQueueRow) : List DbMergeQueueEntry :=
  (((rows.filter (fun r => r.status = "pending" || r.status = "merging")).insertionSort
    (fun a b => b.enqueued_at ≤ a.enqueued_at)).map mapMergeEntry)

/-! ## Demo simulator (src/server/simulator.ts), query layer -/

/-- The `DemoSimulator`'s mutable collections.  `agents` and `mergeQueue`
are JavaScript `Map`s, modelled as insertion-ordered association lists. -/
structure DemoSimState where
  agents : List (String × AgentSession)
  messages : List MailMessage
  mergeQueue : List (String × DbMergeQueueEntry)
  completedAgents : List MetricsSession
deriving DecidableEq

namespace DemoSimulator

/-- Query `querySessions`: all current agent sessions. -/
def querySessions (st : DemoSimState) : List AgentSession :=
  st.agents.map (·.2)

/-- Query `queryRecentMessages`: the last 50 messages. -/
def queryRecentMessages (st : DemoSimState) : List MailMessage :=
  st.messages.drop (st.messages.length - 50)

/-- Query `queryNewMessages`: messages strictly newer than the cursor. -/
def queryNewMessages (st : DemoSimState) (since : String) : List MailMessage :=
  st.messages.filter (fun m => decide (since < m.createdAt))

/-- Query `queryMessageCount`. -/
def queryMessageCount (st : DemoSimState) : Nat :=
  st.messages.length

/-- Query `queryMergeQueue`: current entries whose status is pending or merging. -/
def queryMergeQueue (st : DemoSimState) : List DbMergeQueueEntry :=
  (st.mergeQueue.map (·.2)).filter
    (fun e => e.status = "pending" || e.status = "merging")

/-- Query `queryMetricsSessions`. -/
def queryMetricsSessions (st : DemoSimState) : List MetricsSession :=
  st.completedAgents

end DemoSimulator

/-! ## Discovery manager (src/server/discovery.ts) -/

/-- A discovered source instance. -/
structure DiscoveredProject where
  name : String
  path : String
  overstoryDir : String
  active : Bool
  activeAgents : Nat
deriving DecidableEq

/-- The fingerprint `projectsKey`: structural fingerprint of a project list — the sorted
path list joined with `|`. -/
def projectsKey (projects : List DiscoveredProject) : String :=
  String.intercalate "|" ((projects.map (·.path)).insertionSort (fun a b => a ≤ b))

/-- The `DiscoveryManager`'s mutable state. -/
structure DiscoveryState where
  projects : List DiscoveredProject
  lastKey : String
deriving DecidableEq

/-- One `DiscoveryManager.scan` step.  `discovered` is the result of
`discoverProjects()` for the current filesystem layout.  Returns the new
state and the number of `notifyHandlers()` rounds performed (each round
invokes every registered change handler exactly once). -/
def DiscoveryManager.scan (st : DiscoveryState) (discovered : List DiscoveredProject) :
    DiscoveryState × Nat :=
  let key := projectsKey discovered
  if key = st.lastKey then (st, 0)
  else
    let discovered' := discovered.map (fun p =>
      match st.projects.find? (fun q => q.path = p.path) with
      | some old => { p with activeAgents := old.activeAgents }
      | none => p)
    ({ projects := discovered', lastKey := key }, 1)

/-! ## Mode manager (src/server/index.ts, `ModeManager`) -/

/-- Which of the four stores exist (non-empty and openable) in a source
directory. -/
structure StoreSet where
  sessions : Bool
  mail : Bool
  mergeQueue : Bool
  metrics : Bool
  events : Bool
deriving DecidableEq

/-- Identity of one opened live connection bundle. -/
structure LiveConn where
  overstoryDir : String
  projectName : String
deriving DecidableEq

/-- What the mode manager's query function pointers reference. -/
inductive ProviderRef
  | sim
  | live (conn : LiveConn)
deriving DecidableEq

/-- Model of `openDb`: open one store.  A missing required store is fatal
(`process.exit(1)`, modelled as `Except.error`); a missing optional store
degrades to `none`. -/
def openDb (present : Bool) (required : Bool) : Except String (Option Unit) :=
  if present then Except.ok (some ())
  else if required then Except.error "process.exit(1)"
  else Except.ok none

/-- Model of `openLiveDatabases`: open a live connection bundle.  The sessions
store is probed inline (its own `try/catch`; failure yields `null`, not
an exit); the secondary stores go through `openDb` with
`required := false`; the events store is probed inline and its absence
also degrades.  Fatality can only arise from `openDb` with
`required := true`, which this function never invokes. -/
def openLiveDatabases (fs : String → StoreSet) (overstoryDir : String)
    (projectName : String) : Except String (Option LiveConn) := do
  let s := fs overstoryDir
  if !s.sessions then
    return none
  let _mail ← openDb s.mail false
  let _mergeQueue ← openDb s.mergeQueue false
  let _metrics ← openDb s.metrics false
  return some { overstoryDir := overstoryDir, projectName := projectName }

/-- The `ModeManager`'s mutable state. -/
structure MMState where
  mode : String
  activeProject : Option String
  live : Option LiveConn
  simulatorOn : Bool
  projects : List DiscoveredProject
  forceDemoMode : Bool
  overrideDir : Option String
  querySource : ProviderRef
deriving DecidableEq

namespace ModeManager

/-- Method `_startDemo`: create a fresh simulator and point every query at it. -/
def startDemo (st : MMState) : MMState :=
  { st with
    simulatorOn := true
    mode := "demo"
    activeProject := none
    querySource := ProviderRef.sim }

/-- Method `_setLiveMode`: point every query at the given live bundle. -/
def setLiveMode (st : MMState) (live : LiveConn) (projectName : String) : MMState :=
  { st with
    mode := "live"
    activeProject := some projectName
    querySource := ProviderRef.live live }

/-- The `ModeManager` constructor.  `Except.error` models `process.exit`
(an uncaught startup failure); the constructor only reaches `startDemo`
or `setLiveMode`: with an override it attempts the live connection when
demo is not forced, and in every non-success case falls through to demo
mode. -/
def init (fs : String → StoreSet) (forceDemoMode : Bool) (overrideDir : Option String) :
    Except String MMState :=
  let base : MMState :=
    { mode := "demo", activeProject := none, live := none, simulatorOn := false,
      projects := [], forceDemoMode := forceDemoMode, overrideDir := overrideDir,
      querySource := ProviderRef.sim }
  match overrideDir, forceDemoMode with
  | some dir, false =>
    (match openLiveDatabases fs dir "override" with
      | Except.error e => Except.error e
      | Except.ok (some live) =>
        Except.ok (setLiveMode { base with live := some live } live "override")
      | Except.ok none => Except.ok (startDemo base))
  | _, _ => Except.ok (startDemo base)

/-- Method `_switchToLive`: close the current live bundle (if any), try to open
the candidate's bundle, and only on success move mode, active project and
query surface over.  Returns the new state and the list of live bundles
whose resources were closed during the call. -/
def switchToLive (fs : String → StoreSet) (st : MMState) (project : DiscoveredProject) :
    MMState × List LiveConn :=
  let closed : List LiveConn := match st.live with
    | some l => [l]
    | none => []
  let st1 := { st with live := none }
  match openLiveDatabases fs project.overstoryDir project.name with
  | Except.ok (some live) =>
    ({ st1 with
        live := some live
        simulatorOn := false
        mode := "live"
        activeProject := some project.name
        querySource := ProviderRef.live live }, closed)
  | _ => (st1, closed)

/-- Method `_switchToDemo`: close the live bundle and start the simulator. -/
def switchToDemo (st : MMState) : MMState × List LiveConn :=
  let closed : List LiveConn := match st.live with
    | some l => [l]
    | none => []
  (startDemo { st with live := none }, closed)

/-- The candidate with the most active agents (strictly positive), first
such wins ties — the selection loop of `onProjectsChanged`. -/
def bestProject (projects : List DiscoveredProject) : Option DiscoveredProject :=
  projects.foldl (fun best p =>
    if 0 < p.activeAgents then
      match best with
      | none => some p
      | some q => if q.activeAgents < p.activeAgents then some p else some q
    else best) none

/-- Method `onProjectsChanged`: store the new list; when not frozen by
`forceDemoMode` or an explicit override, pick the best candidate and
switch modes accordingly. -/
def onProjectsChanged (fs : String → StoreSet) (st : MMState)
    (projects : List DiscoveredProject) : MMState × List LiveConn :=
  let st := { st with projects := projects }
  if st.forceDemoMode || st.overrideDir.isSome then (st, [])
  else
    match bestProject projects with
    | some best =>
      if st.mode ≠ "live" || st.activeProject ≠ some best.name then
        switchToLive fs st best
      else (st, [])
    | none =>
      if st.mode ≠ "demo" then switchToDemo st else (st, [])

end ModeManager

/-! ## Delta engine (src/server/index.ts, per-client tracking) -/

/-- The typed update messages (`StateUpdate`). -/
inductive StateUpdate
  | agent_update (data : Agent)
  | message_event (data : AgentMessage)
  | merge_update (data : MergeQueueEntry)
  | metrics_update (data : SwarmMetrics)
  | tool_event (data : ToolEventData)
deriving DecidableEq

/-- The full-state snapshot sent at connect time (`StateSnapshot`). -/
structure StateSnapshot where
  agents : List Agent
  messages : List AgentMessage
  mergeQueue : List MergeQueueEntry
  metrics : SwarmMetrics
deriving DecidableEq

/-- The mode manager's uniform query surface as one tick observes it:
each field is the result (or, for the cursor queries, the
result-function) of the corresponding `modeManager.queryX`. -/
structure SourceView where
  querySessions : List AgentSession
  queryRecentMessages : List MailMessage
  queryNewMessages : String → List MailMessage
  queryMessageCount : Nat
  queryMergeQueue : List DbMergeQueueEntry
  queryMetricsSessions : List MetricsSession
  queryNewEvents : Nat → List ToolEventData

/-- Per-connection tracking record (`ClientState`). -/
structure ClientState where
  agentStateMap : List (String × String)
  lastMessageTimestamp : String
  mergeStatusMap : List (String × String)
  metricsKey : String
  lastTotalMessages : Nat
  lastDashboardKey : String
  lastEventId : Nat
deriving DecidableEq

/-- The builder `buildSnapshot`: poll every query and assemble a full snapshot.
`smoothedCostPerMinute` is the module-level rolling-rate global that
`computeMetrics` passes through. -/
def buildSnapshot (v : SourceView) (smoothedCostPerMinute : Rat) : StateSnapshot :=
  { agents := v.querySessions.map toAgent
    messages := v.queryRecentMessages.map toAgentMessage
    mergeQueue := v.queryMergeQueue.map toVizMergeEntry
    metrics := computeMetrics v.querySessions v.queryMessageCount
      v.queryMetricsSessions smoothedCostPerMinute }

/-- The initializer `initClientState`: build a connection's tracking record from its
initial snapshot.  `dashKey` is `dashboardKey(modeManager.buildDashboardState())`. -/
def initClientState (snapshot : StateSnapshot) (dashKey : String) : ClientState :=
  let agentStateMap := snapshot.agents.foldl
    (fun m a => alistSet m a.name (agentKey a)) []
  let lastMessageTimestamp := match snapshot.messages.getLast? with
    | some lastMsg => toIsoString lastMsg.createdAt
    | none => toIsoString 0
  let mergeStatusMap := snapshot.mergeQueue.foldl
    (fun m e => alistSet m e.branchName e.status) []
  { agentStateMap := agentStateMap
    lastMessageTimestamp := lastMessageTimestamp
    mergeStatusMap := mergeStatusMap
    metricsKey := metricsKey snapshot.metrics
    lastTotalMessages := snapshot.metrics.totalMessages
    lastDashboardKey := dashKey
    lastEventId := 0 }

/-- The delta engine `computeUpdates`: one tick's incremental updates for one connection,
together with the advanced tracking record.  Mirrors the source order:
agent updates, then new messages, then merge-queue updates, then tool
events, then at most one metrics update; afterwards the agent and merge
maps are rebuilt from scratch. -/
def computeUpdates (smoothedCostPerMinute : Rat) (v : SourceView) (state : ClientState) :
    List StateUpdate × ClientState :=
  let vizAgents := v.querySessions.map toAgent
  let agentUpds := vizAgents.filterMap (fun agent =>
    match alistGet state.agentStateMap agent.name with
    | none => some (StateUpdate.agent_update agent)
    | some prev =>
      if prev ≠ agentKey agent then some (StateUpdate.agent_update agent) else none)
  let newMail :=
    if state.lastMessageTimestamp ≠ "" then
      (v.queryNewMessages state.lastMessageTimestamp).map toAgentMessage
    else []
  let msgUpds := newMail.map StateUpdate.message_event
  let lastMessageTimestamp := match newMail.getLast? with
    | some lastNew => toIsoString lastNew.createdAt
    | none => state.lastMessageTimestamp
  let currentMerge := v.queryMergeQueue.map toVizMergeEntry
  let mergeUpds := currentMerge.filterMap (fun entry =>
    match alistGet state.mergeStatusMap entry.branchName with
    | none => some (StateUpdate.merge_update entry)
    | some prev =>
      if prev ≠ entry.status then some (StateUpdate.merge_update entry) else none)
  let newEvents := v.queryNewEvents state.lastEventId
  let toolUpds := newEvents.map StateUpdate.tool_event
  let totalMessages := v.queryMessageCount
  let currentMetrics := computeMetrics v.querySessions totalMessages
    v.queryMetricsSessions smoothedCostPerMinute
  let currentKey := metricsKey currentMetrics
  let metricsUpds :=
    if currentKey ≠ state.metricsKey then [StateUpdate.metrics_update currentMetrics] else []
  let newMetricsKey := if currentKey ≠ state.metricsKey then currentKey else state.metricsKey
  let newLastTotal :=
    if currentKey ≠ state.metricsKey then totalMessages else state.lastTotalMessages
  let updates := agentUpds ++ msgUpds ++ mergeUpds ++ toolUpds ++ metricsUpds
  let newAgentMap := vizAgents.foldl (fun m a => alistSet m a.name (agentKey a)) []
  let newMergeMap := currentMerge.foldl (fun m e => alistSet m e.branchName e.status) []
  (updates,
    { state with
        agentStateMap := newAgentMap
        mergeStatusMap := newMergeMap
        lastMessageTimestamp := lastMessageTimestamp
        metricsKey := newMetricsKey
        lastTotalMessages := newLastTotal })

/-! ## Decimal representation facts

`agentKey` and `metricsKey` embed numbers in strings with `Nat.repr`;
proving that differing numbers give differing fingerprints needs the
injectivity of `Nat.repr`, established here from first principles. -/

theorem toDigitsCore_shift (fuel : Nat) : ∀ (n : Nat) (ds : List Char),
    Nat.toDigitsCore 10 fuel n ds = Nat.toDigitsCore 10 fuel n [] ++ ds := by
  induction fuel with
  | zero => intro n ds; simp [Nat.toDigitsCore]
  | succ fuel ih =>
    intro n ds
    simp only [Nat.toDigitsCore]
    by_cases h : n / 10 = 0
    · simp [h]
    · simp only [if_neg h]
      rw [ih (n / 10) (Nat.digitChar (n % 10) :: ds),
        ih (n / 10) [Nat.digitChar (n % 10)], List.append_assoc]
      rfl

theorem digitVal_digitChar (d : Nat) (h : d < 10) :
    SwarmViz.digitVal (Nat.digitChar d) = d := by
  interval_cases d <;> rfl

theorem digitsVal_append_one (l : List Char) (c : Char) :
    SwarmViz.digitsVal (l ++ [c]) = SwarmViz.digitsVal l * 10 + SwarmViz.digitVal c := by
  simp [SwarmViz.digitsVal, List.foldl_append]

theorem digitsVal_toDigitsCore (fuel : Nat) : ∀ n : Nat, n < fuel →
    SwarmViz.digitsVal (Nat.toDigitsCore 10 fuel n []) = n := by
  induction fuel with
  | zero => intro n h; omega
  | succ fuel ih =>
    intro n h
    simp only [Nat.toDigitsCore]
    by_cases h10 : n / 10 = 0
    · have hn : n < 10 := by omega
      simp only [if_pos h10]
      show SwarmViz.digitsVal ([] ++ [Nat.digitChar (n % 10)]) = n
      rw [digitsVal_append_one, digitVal_digitChar (n % 10) (by omega)]
      simp [SwarmViz.digitsVal]
      omega
    · have hdiv : n / 10 < fuel := by
        have : n / 10 < n := Nat.div_lt_self (by omega) (by omega)
        omega
      simp only [if_neg h10]
      rw [toDigitsCore_shift, digitsVal_append_one, ih (n / 10) hdiv,
        digitVal_digitChar (n % 10) (by omega)]
      omega

theorem natRepr_inj {m n : Nat} (h : Nat.repr m = Nat.repr n) : m = n := by
  have hdata : Nat.toDigitsCore 10 (m + 1) m [] = Nat.toDigitsCore 10 (n + 1) n [] := by
    have := congrArg String.data h
    simpa [Nat.repr, Nat.toDigits, List.asString] using this
  have hm := digitsVal_toDigitsCore (m + 1) m (by omega)
  have hn := digitsVal_toDigitsCore (n + 1) n (by omega)
  rw [← hm, ← hn, hdata]

/-- Cancel a common prefix and suffix around two lists. -/
theorem middle_cancel {α : Type} {p q m1 m2 : List α}
    (h : p ++ m1 ++ q = p ++ m2 ++ q) : m1 = m2 := by
  rw [List.append_assoc p m1 q, List.append_assoc p m2 q] at h
  exact List.append_cancel_right (List.append_cancel_left h)

/-! ## Small lemmas about the embedding -/

@[simp] theorem toAgent_name (s : AgentSession) : (toAgent s).name = s.agentName := rfl

@[simp] theorem toAgent_state (s : AgentSession) : (toAgent s).state = s.state := rfl

@[simp] theorem toAgent_parentAgent (s : AgentSession) :
    (toAgent s).parentAgent = s.parentAgent := rfl

@[simp] theorem toAgent_lastActivity (s : AgentSession) :
    (toAgent s).lastActivity = parseDateMs s.lastActivity := rfl

@[simp] theorem mapMergeEntry_status (row : MergeQueueRow) :
    (mapMergeEntry row).status = row.status := rfl

theorem mem_alistSet {α : Type} {m : List (String × α)} {k : String} {v : α}
    {p : String × α} : p ∈ alistSet m k v → p = (k, v) ∨ p ∈ m := by
  induction m with
  | nil => intro h; simpa [alistSet] using h
  | cons e rest ih =>
    obtain ⟨k', v'⟩ := e
    intro h
    simp only [alistSet] at h
    by_cases hk : k' = k
    · rw [if_pos hk] at h
      rcases List.mem_cons.mp h with h | h
      · exact Or.inl h
      · exact Or.inr (List.mem_cons_of_mem _ h)
    · rw [if_neg hk] at h
      rcases List.mem_cons.mp h with h | h
      · exact Or.inr (by simp [h])
      · rcases ih h with h' | h'
        · exact Or.inl h'
        · exact Or.inr (List.mem_cons_of_mem _ h')

theorem alistGet_mem {α : Type} {m : List (String × α)} {k : String} {v : α}
    (h : alistGet m k = some v) : ∃ p, p ∈ m ∧ p.2 = v := by
  simp only [alistGet, Option.map_eq_some'] at h
  rcases h with ⟨p, hp, rfl⟩
  exact ⟨p, List.mem_of_find?_eq_some hp, rfl⟩

/-! ## C8 — malformed embedded list tolerance of `mapMergeEntry` -/

/-- C8: `mapMergeEntry` is total (it is a plain function into
`DbMergeQueueEntry`, so it can neither throw nor propagate an error);
whenever the embedded `files_modified` list fails to parse it returns
`filesModified = []` while mapping every other field straight through. -/
theorem C8_mapMergeEntry_total_on_parse_failure (row : MergeQueueRow)
    (h : parseStringArray row.files_modified = none) :
    mapMergeEntry row =
      { id := row.id
        branchName := row.branch_name
        beadId := row.bead_id
        agentName := row.agent_name
        filesModified := []
        enqueuedAt := row.enqueued_at
        status := row.status
        resolvedTier := row.resolved_tier } := by
  simp [mapMergeEntry, h]

/-- The merge-queue row from the spec's example: `files_modified` holds
the non-JSON string `not-valid-json`. -/
def mergeRowBad : MergeQueueRow :=
  { id := 7
    branch_name := "overstory/srv-builder-1/auth-refactor"
    bead_id := "auth-refactor"
    agent_name := "srv-builder-1"
    files_modified := "not-valid-json"
    enqueued_at := "2025-01-01T00:00:10.000Z"
    status := "pending"
    resolved_tier := none }

theorem C8_witness :
    parseStringArray mergeRowBad.files_modified = none ∧
    mapMergeEntry mergeRowBad =
      { id := 7
        branchName := "overstory/srv-builder-1/auth-refactor"
        beadId := "auth-refactor"
        agentName := "srv-builder-1"
        filesModified := []
        enqueuedAt := "2025-01-01T00:00:10.000Z"
        status := "pending"
        resolvedTier := none } :=
  ⟨by decide, C8_mapMergeEntry_total_on_parse_failure mergeRowBad (by decide)⟩

/-! ## C10 — merge-queue queries only return pending/merging entries -/

/-- C10: every entry returned by the live merge-queue query and every
entry returned by the simulator's `queryMergeQueue` has status `pending`
or `merging`; the other statuses never reach a snapshot or delta. -/
theorem C10_merge_queue_status_invariant (rows : List MergeQueueRow)
    (st : DemoSimState) (e : DbMergeQueueEntry) :
    (e ∈ liveQueryMergeQueue rows → e.status = "pending" ∨ e.status = "merging") ∧
    (e ∈ DemoSimulator.queryMergeQueue st → e.status = "pending" ∨ e.status = "merging") := by
  constructor
  · intro he
    simp only [liveQueryMergeQueue, List.mem_map] at he
    obtain ⟨r, hr, rfl⟩ := he
    rw [List.mem_insertionSort] at hr
    have h := List.of_mem_filter hr
    simp only [Bool.or_eq_true, decide_eq_true_eq] at h
    simpa using h
  · intro he
    simp only [DemoSimulator.queryMergeQueue, List.mem_filter] at he
    have h := he.2
    simpa using h

/-- A pending row for the live side of the C10 witness. -/
def mergeRowPending : MergeQueueRow :=
  { id := 1
    branch_name := "overstory/cli-builder-1/ui-overhaul"
    bead_id := "ui-overhaul"
    agent_name := "cli-builder-1"
    files_modified := "[\"client/a.ts\"]"
    enqueued_at := "2025-01-01T00:01:00.000Z"
    status := "pending"
    resolved_tier := none }

/-- A merging entry for the demo side of the C10 witness. -/
def demoEntryMerging : DbMergeQueueEntry :=
  { id := 2
    branchName := "overstory/srv-builder-2/api-gateway"
    beadId := "api-gateway"
    agentName := "srv-builder-2"
    filesModified := ["server/b.ts"]
    enqueuedAt := "2025-01-01T00:01:16.000Z"
    status := "merging"
    resolvedTier := none }

theorem C10_witness :
    ((mapMergeEntry mergeRowPending).status = "pending" ∨
      (mapMergeEntry mergeRowPending).status = "merging") ∧
    (demoEntryMerging.status = "pending" ∨ demoEntryMerging.status = "merging") :=
  ⟨(C10_merge_queue_status_invariant [mergeRowPending] ⟨[], [], [], []⟩
      (mapMergeEntry mergeRowPending)).1 (by decide),
   (C10_merge_queue_status_invariant []
      ⟨[], [], [(demoEntryMerging.branchName, demoEntryMerging)], []⟩ demoEntryMerging).2
      (by decide)⟩

/-! ## C7 — idempotent unchanged-state detection in discovery -/

/-- C7: scanning twice against an unchanged filesystem layout (the same
discovered-project list, hence the same sorted-path fingerprint) performs
zero `notifyHandlers` rounds on the second scan, so no registered change
handler is invoked. -/
theorem C7_scan_idempotent_no_notify (st : DiscoveryState)
    (discovered : List DiscoveredProject) :
    (DiscoveryManager.scan (DiscoveryManager.scan st discovered).1 discovered).2 = 0 := by
  unfold DiscoveryManager.scan
  by_cases h : projectsKey discovered = st.lastKey
  · simp [h]
  · simp [h]

/-! ## C9 — `computeMetrics` is deterministic and treats null costs as zero -/

theorem costFoldStep_zero {map : List (String × AgentCostEntry)} {s : MetricsSession}
    (hs : s.estimatedCostUsd = none) (hmap : ∀ p ∈ map, p.2.costUsd = 0) :
    ∀ p ∈ costFoldStep map s, p.2.costUsd = 0 := by
  intro p hp
  simp only [costFoldStep] at hp
  rcases mem_alistSet hp with heq | hpm
  · rw [heq]
    cases halist : alistGet map s.agentName with
    | none => simp [halist, hs]
    | some e =>
      obtain ⟨p', hp', he⟩ := alistGet_mem halist
      have h0 := hmap p' hp'
      rw [he] at h0
      simp [halist, hs, h0]
  · exact hmap p hpm

theorem foldl_costFoldStep_zero (ms : List MetricsSession) :
    ∀ acc : List (String × AgentCostEntry),
    (∀ x ∈ ms, x.estimatedCostUsd = none) → (∀ p ∈ acc, p.2.costUsd = 0) →
    ∀ p ∈ ms.foldl costFoldStep acc, p.2.costUsd = 0 := by
  induction ms with
  | nil => intro acc _ hacc p hp; exact hacc p hp
  | cons s rest ih =>
    intro acc hms hacc p hp
    simp only [List.foldl_cons] at hp
    exact ih (costFoldStep acc s)
      (fun x hx => hms x (List.mem_cons_of_mem _ hx))
      (costFoldStep_zero (hms s (List.mem_cons_self _ _)) hacc) p hp

theorem foldl_add_costUsd_zero (l : List AgentCostEntry)
    (h : ∀ e ∈ l, e.costUsd = 0) :
    ∀ init : Rat, l.foldl (fun sum e => sum + e.costUsd) init = init := by
  induction l with
  | nil => intro init; rfl
  | cons e rest ih =>
    intro init
    simp only [List.foldl_cons]
    rw [h e (List.mem_cons_self _ _), add_zero]
    exact ih (fun x hx => h x (List.mem_cons_of_mem _ hx)) init

/-- C9: `computeMetrics` is a pure function of its four arguments — equal
inputs give equal `SwarmMetrics` (there is no hidden global state in the
model, which is total and state-free) — and a null `estimatedCostUsd` is
aggregated as zero, so all-null costs yield `totalCost = 0`. -/
theorem C9_computeMetrics_deterministic_and_null_costs :
    (∀ (s₁ s₂ : List AgentSession) (t₁ t₂ : Nat) (m₁ m₂ : List MetricsSession) (c₁ c₂ : Rat),
      s₁ = s₂ → t₁ = t₂ → m₁ = m₂ → c₁ = c₂ →
      computeMetrics s₁ t₁ m₁ c₁ = computeMetrics s₂ t₂ m₂ c₂) ∧
    (∀ (s : List AgentSession) (t : Nat) (ms : List MetricsSession) (c : Rat),
      (∀ x ∈ ms, x.estimatedCostUsd = none) →
      (computeMetrics s t ms c).totalCost = 0) := by
  constructor
  · intro s₁ s₂ t₁ t₂ m₁ m₂ c₁ c₂ hs ht hm hc
    subst hs; subst ht; subst hm; subst hc; rfl
  · intro s t ms c hms
    have hmap := foldl_costFoldStep_zero ms [] hms (by simp)
    have hall : ∀ e ∈ ((ms.foldl costFoldStep []).map (·.2)).insertionSort
        (fun a b => b.costUsd ≤ a.costUsd), e.costUsd = 0 := by
      intro e he
      rw [List.mem_insertionSort] at he
      obtain ⟨p, hp, rfl⟩ := List.mem_map.mp he
      exact hmap p hp
    simp only [computeMetrics]
    exact foldl_add_costUsd_zero _ hall 0

/-- A completed metrics record with a null estimated cost. -/
def msNullCost : MetricsSession :=
  { agentName := "scout-srv"
    beadId := "auth-refactor"
    capability := "scout"
    startedAt := "2025-01-01T00:00:10.000Z"
    completedAt := some "2025-01-01T00:00:22.000Z"
    durationMs := 12000
    exitCode := some 0
    mergeResult := some "merged"
    parentAgent := some "server-lead"
    inputTokens := 12000
    outputTokens := 5000
    cacheReadTokens := 800
    cacheCreationTokens := 100
    estimatedCostUsd := none
    modelUsed := some "claude-sonnet-4-5-20250929" }

/-- A second null-cost record, for a different agent. -/
def msNullCost2 : MetricsSession :=
  { msNullCost with agentName := "scout-cli", parentAgent := some "client-lead" }

theorem C9_witness :
    computeMetrics [] 3 [msNullCost] 0 = computeMetrics [] 3 [msNullCost] 0 ∧
    (computeMetrics [] 3 [msNullCost, msNullCost2] 0).totalCost = 0 :=
  ⟨C9_computeMetrics_deterministic_and_null_costs.1
      [] [] 3 3 [msNullCost] [msNullCost] 0 0 rfl rfl rfl rfl,
   C9_computeMetrics_deterministic_and_null_costs.2
      [] 3 [msNullCost, msNullCost2] 0 (by decide)⟩

/-! ## C1 — the agent change-fingerprint's components -/

theorem agentKey_data (a : Agent) :
    (agentKey a).data =
      a.state.data ++
        (':' :: ((Nat.repr a.lastActivity).data ++ (':' :: (a.parentAgent.getD "").data))) := by
  simp [agentKey, List.append_assoc]

/-- A session as the simulator would produce it, used as the base point
of the C1 and C3 scenarios. -/
def sesBase : AgentSession :=
  { id := "s1"
    agentName := "x"
    capability := "builder"
    worktreePath := "/w/x"
    branchName := "overstory/x/task-1"
    beadId := "task-1"
    tmuxSession := "t:x"
    state := "working"
    pid := some 100
    parentAgent := none
    depth := 0
    runId := none
    startedAt := "2025-01-01T00:00:00.000Z"
    lastActivity := "2025-01-01T00:00:05.000Z"
    escalationLevel := 0
    stalledSince := none }

/-- C1 counterexample: the claim fails on the code in both directions.
Two sessions that differ only in `escalationLevel` (a field the claim
puts inside the fingerprint) produce *equal* fingerprints, and two
sessions that differ only in `parentAgent` (a field the claim puts
outside the fingerprint) produce *unequal* fingerprints: `agentKey`
concatenates state, last-activity and parent agent, not the escalation
counter. -/
theorem C1_counterexample :
    ({ sesBase with escalationLevel := 1 } : AgentSession).escalationLevel ≠
      sesBase.escalationLevel ∧
    agentKey (toAgent sesBase) = agentKey (toAgent { sesBase with escalationLevel := 1 }) ∧
    ({ sesBase with parentAgent := some "coordinator" } : AgentSession).parentAgent ≠
      sesBase.parentAgent ∧
    agentKey (toAgent sesBase) ≠
      agentKey (toAgent { sesBase with parentAgent := some "coordinator" }) := by
  decide

/-- C1 (amended): the fingerprint `agentKey (toAgent s)` is determined by
exactly the session fields `state`, `lastActivity` and `parentAgent`:
sessions agreeing on those three have equal fingerprints (hence sessions
differing only in any other field do); sessions differing in exactly one
of them have unequal fingerprints — outright for `state`, and for
`lastActivity` (resp. `parentAgent`) whenever the difference survives the
wire conversion, i.e. the parsed epoch-millisecond values (resp. the
null-coalesced parent strings) differ. -/
theorem C1_agentKey_components (s₁ s₂ : AgentSession) :
    ((s₁.state = s₂.state ∧ s₁.lastActivity = s₂.lastActivity ∧
        s₁.parentAgent = s₂.parentAgent) →
      agentKey (toAgent s₁) = agentKey (toAgent s₂)) ∧
    (s₁.lastActivity = s₂.lastActivity → s₁.parentAgent = s₂.parentAgent →
      s₁.state ≠ s₂.state → agentKey (toAgent s₁) ≠ agentKey (toAgent s₂)) ∧
    (s₁.state = s₂.state → s₁.parentAgent = s₂.parentAgent →
      parseDateMs s₁.lastActivity ≠ parseDateMs s₂.lastActivity →
      agentKey (toAgent s₁) ≠ agentKey (toAgent s₂)) ∧
    (s₁.state = s₂.state → s₁.lastActivity = s₂.lastActivity →
      s₁.parentAgent.getD "" ≠ s₂.parentAgent.getD "" →
      agentKey (toAgent s₁) ≠ agentKey (toAgent s₂)) := by
  refine ⟨?_, ?_, ?_, ?_⟩
  · rintro ⟨h1, h2, h3⟩
    simp [agentKey, h1, h2, h3]
  · intro hla hpar hstate hkey
    apply hstate
    have hd := congrArg String.data hkey
    rw [agentKey_data, agentKey_data] at hd
    simp only [toAgent_state, toAgent_lastActivity, toAgent_parentAgent, hla, hpar] at hd
    exact String.ext (List.append_cancel_right hd)
  · intro hstate hpar hla hkey
    apply hla
    have hd := congrArg String.data hkey
    rw [agentKey_data, agentKey_data] at hd
    simp only [toAgent_state, toAgent_lastActivity, toAgent_parentAgent, hstate, hpar] at hd
    have h1 := List.append_cancel_left hd
    injection h1 with _ h2
    have h3 := List.append_cancel_right h2
    exact natRepr_inj (String.ext h3)
  · intro hstate hla hpar hkey
    apply hpar
    have hd := congrArg String.data hkey
    rw [agentKey_data, agentKey_data] at hd
    simp only [toAgent_state, toAgent_lastActivity, toAgent_parentAgent, hstate, hla] at hd
    have h1 := List.append_cancel_left hd
    injection h1 with _ h2
    have h3 := List.append_cancel_left h2
    injection h3 with _ h4
    exact String.ext h4

theorem C1_witness :
    agentKey (toAgent sesBase) =
      agentKey (toAgent { sesBase with worktreePath := "/w/y" }) ∧
    agentKey (toAgent sesBase) ≠
      agentKey (toAgent { sesBase with state := "completed" }) ∧
    agentKey (toAgent sesBase) ≠
      agentKey (toAgent { sesBase with lastActivity := "2025-01-01T00:00:06.000Z" }) ∧
    agentKey (toAgent sesBase) ≠
      agentKey (toAgent { sesBase with parentAgent := some "client-lead" }) :=
  ⟨(C1_agentKey_components sesBase { sesBase with worktreePath := "/w/y" }).1
      ⟨rfl, rfl, rfl⟩,
   (C1_agentKey_components sesBase { sesBase with state := "completed" }).2.1
      rfl rfl (by decide),
   (C1_agentKey_components sesBase
      { sesBase with lastActivity := "2025-01-01T00:00:06.000Z" }).2.2.1
      rfl rfl (by decide),
   (C1_agentKey_components sesBase { sesBase with parentAgent := some "client-lead" }).2.2.2
      rfl rfl (by decide)⟩

/-! ## C2 — the new-events query and its cursor -/

/-- An event row of the C2 scenario. -/
def evRow (i : Nat) : ToolEventRow :=
  { id := i
    agent_name := "srv-builder-1"
    tool_name := some "Bash"
    event_type := "tool_start"
    created_at := "2025-01-01T00:01:00.000Z" }

/-- Store holding events with ids 1, 2, 3 (the claim's N, N+1, N+2 at
N = 1). -/
def eventsStore3 : List ToolEventRow := [evRow 1, evRow 2, evRow 3]

/-- C2 counterexample: with the store holding events 1, 2, 3 and the
bundle freshly opened (internal cursor = the store's max id = 3), the
query called with cursor argument 1 returns no events although two
events have id > 1 — the closure filters by its internal cursor, not the
caller's argument.  And with the internal cursor at 1, a first call
returns both events but the repeated call with the same cursor argument
returns nothing: the internal cursor advanced implicitly. -/
theorem C2_counterexample :
    (liveQueryNewEvents eventsStore3 (initialMaxEventId eventsStore3) 1).1 = [] ∧
    (eventsStore3.filter (fun r => decide (1 < r.id))).length = 2 ∧
    (liveQueryNewEvents eventsStore3 1 1).1.length = 2 ∧
    (liveQueryNewEvents eventsStore3 (liveQueryNewEvents eventsStore3 1 1).2 1).1 = [] := by
  decide

theorem mem_stmtNewEventsRows {store : List ToolEventRow} {c : Nat} {r : ToolEventRow}
    (h : r ∈ stmtNewEventsRows store c) :
    c < r.id ∧ (r.event_type = "tool_start" ∨ r.event_type = "mail_sent") := by
  unfold stmtNewEventsRows at h
  have h1 := List.mem_of_mem_take h
  have h2 := List.of_mem_filter h1
  simp only [Bool.and_eq_true, Bool.or_eq_true, decide_eq_true_eq] at h2
  exact h2

theorem pairwise_id_le_getLast : ∀ {l : List ToolEventRow},
    l.Pairwise (fun r s => r.id < s.id) → ∀ {r last : ToolEventRow}, r ∈ l →
    l.getLast? = some last → r.id ≤ last.id := by
  intro l
  induction l with
  | nil => intro _ r last hr; cases hr
  | cons x xs ih =>
    intro hp r last hr hl
    cases xs with
    | nil =>
      have hr' : r = x := by simpa using hr
      have hl' : x = last := by simpa [List.getLast?] using hl
      simp [hr', ← hl']
    | cons y ys =>
      rw [List.getLast?_cons_cons] at hl
      rcases List.mem_cons.mp hr with rfl | hr'
      · have hlast := List.mem_of_getLast?_eq_some hl
        have := (List.pairwise_cons.mp hp).1 last hlast
        omega
      · exact ih (List.pairwise_cons.mp hp).2 hr' hl

/-- C2 (amended): the new-events query pays no attention to the
caller-supplied cursor.  Provided the events store is append-only with
strictly increasing ids: (1) the result and the advanced internal cursor
are identical for any two cursor arguments; (2) every returned row has id
strictly above the *internal* cursor and one of the two streamed event
types; (3) when at most 50 rows qualify, the result is exactly the
`tool_start`/`mail_sent` events with id above the internal cursor, in
order; (4) the internal cursor advances past everything returned, so a
repeated invocation returns a disjoint batch — at-most-once delivery is
per provider (per closure), not per caller cursor. -/
theorem C2_queryNewEvents_internal_cursor (store : List ToolEventRow) (lastId a b : Nat)
    (hstore : store.Pairwise (fun r s => r.id < s.id)) :
    (liveQueryNewEvents store lastId a = liveQueryNewEvents store lastId b) ∧
    (∀ r ∈ stmtNewEventsRows store lastId, lastId < r.id ∧
      (r.event_type = "tool_start" ∨ r.event_type = "mail_sent")) ∧
    ((store.filter (fun r => decide (lastId < r.id) &&
        (r.event_type = "tool_start" || r.event_type = "mail_sent"))).length ≤ 50 →
      (liveQueryNewEvents store lastId a).1 =
        (store.filter (fun r => decide (lastId < r.id) &&
          (r.event_type = "tool_start" || r.event_type = "mail_sent"))).map
          (fun r =>
            { agentName := r.agent_name
              toolName := r.tool_name
              eventType := r.event_type
              createdAt := r.created_at })) ∧
    (∀ r ∈ stmtNewEventsRows store lastId,
      ∀ s ∈ stmtNewEventsRows store (liveQueryNewEvents store lastId a).2, r.id ≠ s.id) := by
  have hsort : store.insertionSort (fun r s => r.id ≤ s.id) = store :=
    List.Sorted.insertionSort_eq (hstore.imp (fun h => Nat.le_of_lt h))
  refine ⟨rfl, fun r hr => mem_stmtNewEventsRows hr, ?_, ?_⟩
  · intro hlen
    show (stmtNewEventsRows store lastId).map _ = _
    unfold stmtNewEventsRows
    rw [hsort, List.take_of_length_le hlen]
  · intro r hr s hs
    have hpair1 : (stmtNewEventsRows store lastId).Pairwise (fun r s => r.id < s.id) := by
      unfold stmtNewEventsRows
      rw [hsort]
      exact List.Pairwise.sublist (List.take_sublist _ _) (List.Pairwise.filter _ hstore)
    cases hlast : (stmtNewEventsRows store lastId).getLast? with
    | none =>
      rw [List.getLast?_eq_none_iff] at hlast
      rw [hlast] at hr
      cases hr
    | some last =>
      have hrle : r.id ≤ last.id := pairwise_id_le_getLast hpair1 hr hlast
      have hcursor : (liveQueryNewEvents store lastId a).2 = last.id := by
        simp [liveQueryNewEvents, hlast]
      rw [hcursor] at hs
      have hslt := (mem_stmtNewEventsRows hs).1
      omega

theorem C2_witness :
    eventsStore3.Pairwise (fun r s => r.id < s.id) ∧
    liveQueryNewEvents eventsStore3 1 5 = liveQueryNewEvents eventsStore3 1 7 ∧
    (∀ r ∈ stmtNewEventsRows eventsStore3 1, 1 < r.id ∧
      (r.event_type = "tool_start" ∨ r.event_type = "mail_sent")) :=
  ⟨by decide,
   (C2_queryNewEvents_internal_cursor eventsStore3 1 5 7 (by decide)).1,
   (C2_queryNewEvents_internal_cursor eventsStore3 1 5 7 (by decide)).2.1⟩

/-! ## C4 — behavior of a failed live switch -/

/-- The live bundle of the currently active project of the C4 scenario. -/
def connA : LiveConn :=
  { overstoryDir := "/home/u/Dev/projects/a/.overstory", projectName := "a" }

/-- Mode-manager state: live against project `a`. -/
def stLiveA : MMState :=
  { mode := "live"
    activeProject := some "a"
    live := some connA
    simulatorOn := false
    projects := []
    forceDemoMode := false
    overrideDir := none
    querySource := ProviderRef.live connA }

/-- The candidate project the manager tries to switch to. -/
def projB : DiscoveredProject :=
  { name := "b"
    path := "/home/u/Dev/projects/b"
    overstoryDir := "/home/u/Dev/projects/b/.overstory"
    active := false
    activeAgents := 3 }

/-- A filesystem in which no store can be opened anywhere. -/
def fsEmpty : String → StoreSet :=
  fun _ => ⟨false, false, false, false, false⟩

/-- C4 counterexample: in live mode, a switch attempt whose open fails
does *not* leave the previous provider's state unchanged — the previous
live bundle's resources are closed before the candidate is probed, and
the manager ends with `live = none` (while mode, active project and the
query surface still name the now-closed previous provider). -/
theorem C4_counterexample :
    ModeManager.switchToLive fsEmpty stLiveA projB ≠ (stLiveA, []) ∧
    ModeManager.switchToLive fsEmpty stLiveA projB =
      ({ stLiveA with live := none }, [connA]) := by
  decide

/-- C4 (amended): when opening the candidate's databases fails, the mode
manager keeps its previous mode, active project, simulator flag and query
surface — and never crashes (`switchToLive` is a total function whose
failure path just logs and returns) — but the previous live bundle has
already been torn down: `live` ends as `none` and exactly the previously
open bundle's resources are closed by the failed attempt.  Only when no
live bundle was open (switching up from demo) is the state fully
unchanged on error. -/
theorem C4_switch_failure_keeps_pointers_but_closes_previous
    (fs : String → StoreSet) (st : MMState) (project : DiscoveredProject)
    (hfail : openLiveDatabases fs project.overstoryDir project.name = Except.ok none) :
    (ModeManager.switchToLive fs st project).1.mode = st.mode ∧
    (ModeManager.switchToLive fs st project).1.activeProject = st.activeProject ∧
    (ModeManager.switchToLive fs st project).1.simulatorOn = st.simulatorOn ∧
    (ModeManager.switchToLive fs st project).1.querySource = st.querySource ∧
    (ModeManager.switchToLive fs st project).1.live = none ∧
    (ModeManager.switchToLive fs st project).2 = st.live.toList ∧
    (st.live = none → ModeManager.switchToLive fs st project = (st, [])) := by
  have hres : ModeManager.switchToLive fs st project =
      ({ st with live := none },
        match st.live with | some l => [l] | none => []) := by
    unfold ModeManager.switchToLive
    rw [hfail]
  rw [hres]
  refine ⟨rfl, rfl, rfl, rfl, rfl, ?_, ?_⟩
  · cases st.live <;> rfl
  · intro hnone
    cases st
    simp_all

theorem C4_witness :
    openLiveDatabases fsEmpty projB.overstoryDir projB.name = Except.ok none ∧
    (ModeManager.switchToLive fsEmpty stLiveA projB).1.mode = stLiveA.mode ∧
    (ModeManager.switchToLive fsEmpty stLiveA projB).1.activeProject =
      stLiveA.activeProject ∧
    (ModeManager.switchToLive fsEmpty stLiveA projB).2 = stLiveA.live.toList :=
  ⟨rfl,
   (C4_switch_failure_keeps_pointers_but_closes_previous fsEmpty stLiveA projB rfl).1,
   (C4_switch_failure_keeps_pointers_but_closes_previous fsEmpty stLiveA projB rfl).2.1,
   (C4_switch_failure_keeps_pointers_but_closes_previous fsEmpty stLiveA projB
      rfl).2.2.2.2.2.1⟩

/-! ## C5 — startup with an explicit override whose store is missing -/

/-- C5 counterexample: with an explicit override directory whose primary
session store cannot be opened (and demo not forced), startup is *not*
fatal — the constructor returns normally with the manager in demo mode
(`Except.error` would model `process.exit`; the result is `Except.ok`). -/
theorem C5_counterexample :
    ModeManager.init fsEmpty false (some "/x/.overstory") =
      Except.ok
        { mode := "demo"
          activeProject := none
          live := none
          simulatorOn := true
          projects := []
          forceDemoMode := false
          overrideDir := some "/x/.overstory"
          querySource := ProviderRef.sim } := rfl

/-- C5 (amended): when an explicit override is supplied, demo is not
forced, and the override's stores fail to open, the process does not
exit: the mode manager starts in demo (synthetic) mode, and — because
the override is recorded — discovery-driven switching stays frozen for
the life of the process (`onProjectsChanged` only stores the list and
never switches). -/
theorem C5_override_open_failure_falls_back_to_demo
    (fs : String → StoreSet) (dir : String)
    (hfail : openLiveDatabases fs dir "override" = Except.ok none) :
    ∃ st, ModeManager.init fs false (some dir) = Except.ok st ∧
      st.mode = "demo" ∧ st.simulatorOn = true ∧ st.activeProject = none ∧
      st.overrideDir = some dir ∧
      ∀ (gs : String → StoreSet) (projects : List DiscoveredProject),
        ModeManager.onProjectsChanged gs st projects =
          ({ st with projects := projects }, []) := by
  refine ⟨ModeManager.startDemo
    { mode := "demo", activeProject := none, live := none, simulatorOn := false,
      projects := [], forceDemoMode := false, overrideDir := some dir,
      querySource := ProviderRef.sim }, ?_, rfl, rfl, rfl, rfl, ?_⟩
  · have hstep : ModeManager.init fs false (some dir) =
        (match openLiveDatabases fs dir "override" with
          | Except.error e => Except.error e
          | Except.ok (some live) =>
            Except.ok (ModeManager.setLiveMode
              { mode := "demo", activeProject := none, live := some live,
                simulatorOn := false, projects := [], forceDemoMode := false,
                overrideDir := some dir, querySource := ProviderRef.sim } live "override")
          | Except.ok none =>
            Except.ok (ModeManager.startDemo
              { mode := "demo", activeProject := none, live := none,
                simulatorOn := false, projects := [], forceDemoMode := false,
                overrideDir := some dir, querySource := ProviderRef.sim })) := rfl
    rw [hstep, hfail]
  · intro gs projects
    unfold ModeManager.onProjectsChanged
    simp [ModeManager.startDemo]

theorem C5_witness :
    openLiveDatabases fsEmpty "/x/.overstory" "override" = Except.ok none ∧
    (∃ st, ModeManager.init fsEmpty false (some "/x/.overstory") = Except.ok st ∧
      st.mode = "demo" ∧ st.simulatorOn = true ∧ st.activeProject = none ∧
      st.overrideDir = some "/x/.overstory" ∧
      ∀ (gs : String → StoreSet) (projects : List DiscoveredProject),
        ModeManager.onProjectsChanged gs st projects =
          ({ st with projects := projects }, [])) :=
  ⟨rfl, C5_override_open_failure_falls_back_to_demo fsEmpty "/x/.overstory" rfl⟩

/-! ## C3 — scenario A: one agent changes state between ticks -/

/-- The uniform query surface of the C3 scenario: one agent named `x` in
the given state and nothing else (no messages, merge entries, metrics
records or events). -/
def viewX (st : String) : SourceView :=
  { querySessions := [{ sesBase with state := st }]
    queryRecentMessages := []
    queryNewMessages := fun _ => []
    queryMessageCount := 0
    queryMergeQueue := []
    queryMetricsSessions := []
    queryNewEvents := fun _ => [] }

/-- The connection's tracking record, initialized from a snapshot taken
while `x` was working. -/
def clientX : ClientState := initClientState (buildSnapshot (viewX "working") 0) "dk"

/-- C3 counterexample: on the next tick (agent `x` now completed and
nothing else changed) the batch is *not* a single `agent_update` — the
state change also flips the active-agent count from 1 to 0, which is
baked into the metrics fingerprint, so a `metrics_update` is emitted in
the same tick. -/
theorem C3_counterexample :
    (computeUpdates 0 (viewX "completed") clientX).1 ≠
      [StateUpdate.agent_update (toAgent { sesBase with state := "completed" })] ∧
    (computeUpdates 0 (viewX "completed") clientX).1 =
      [StateUpdate.agent_update (toAgent { sesBase with state := "completed" }),
       StateUpdate.metrics_update
         (computeMetrics [{ sesBase with state := "completed" }] 0 [] 0)] := by
  decide

/-- C3 (amended): in scenario A the tick emits exactly two updates, in
order: one `agent_update` for `x` (its fingerprint changed) and one
`metrics_update` (the active-agent count inside the metrics fingerprint
changed from 1 to 0); no message, merge or tool-event updates are
emitted. -/
theorem C3_scenarioA_one_agent_update_plus_metrics :
    (computeUpdates 0 (viewX "completed") clientX).1 =
      [StateUpdate.agent_update (toAgent { sesBase with state := "completed" }),
       StateUpdate.metrics_update
         (computeMetrics [{ sesBase with state := "completed" }] 0 [] 0)] := by
  decide

/-! ## C6 — fixed emission order within a tick -/

/-- Position of an update's kind in the fixed per-tick emission order. -/
def updateRank : StateUpdate → Nat
  | StateUpdate.agent_update _ => 0
  | StateUpdate.message_event _ => 1
  | StateUpdate.merge_update _ => 2
  | StateUpdate.tool_event _ => 3
  | StateUpdate.metrics_update _ => 4

/-- Whether an update is a metrics update. -/
def isMetricsUpdate : StateUpdate → Bool
  | StateUpdate.metrics_update _ => true
  | _ => false

theorem updateRank_le_four (x : StateUpdate) : updateRank x ≤ 4 := by
  cases x <;> simp [updateRank]

theorem mem_agentSegment {agents : List Agent} {m : List (String × String)}
    {x : StateUpdate}
    (hx : x ∈ agents.filterMap (fun agent =>
      match alistGet m agent.name with
      | none => some (StateUpdate.agent_update agent)
      | some prev =>
        if prev ≠ agentKey agent then some (StateUpdate.agent_update agent) else none)) :
    ∃ a, x = StateUpdate.agent_update a := by
  rw [List.mem_filterMap] at hx
  obtain ⟨a, _, hfa⟩ := hx
  refine ⟨a, ?_⟩
  split at hfa
  · exact (Option.some.inj hfa).symm
  · split at hfa
    · exact (Option.some.inj hfa).symm
    · cases hfa

theorem mem_mergeSegment {entries : List MergeQueueEntry} {m : List (String × String)}
    {x : StateUpdate}
    (hx : x ∈ entries.filterMap (fun entry =>
      match alistGet m entry.branchName with
      | none => some (StateUpdate.merge_update entry)
      | some prev =>
        if prev ≠ entry.status then some (StateUpdate.merge_update entry) else none)) :
    ∃ e, x = StateUpdate.merge_update e := by
  rw [List.mem_filterMap] at hx
  obtain ⟨e, _, hfe⟩ := hx
  refine ⟨e, ?_⟩
  split at hfe
  · exact (Option.some.inj hfe).symm
  · split at hfe
    · exact (Option.some.inj hfe).symm
    · cases hfe

theorem pairwise_rank_five {A B C D E : List StateUpdate}
    (hA : ∀ x ∈ A, updateRank x = 0) (hB : ∀ x ∈ B, updateRank x = 1)
    (hC : ∀ x ∈ C, updateRank x = 2) (hD : ∀ x ∈ D, updateRank x = 3)
    (hE : ∀ x ∈ E, updateRank x = 4) :
    (A ++ B ++ C ++ D ++ E).Pairwise (fun a b => updateRank a ≤ updateRank b) := by
  have hconst : ∀ (l : List StateUpdate) (i : Nat), (∀ x ∈ l, updateRank x = i) →
      l.Pairwise (fun a b => updateRank a ≤ updateRank b) := fun l i h =>
    List.pairwise_of_forall_mem_list (fun a ha b hb => by rw [h a ha, h b hb])
  have hAB : ∀ x ∈ A ++ B, updateRank x ≤ 1 := by
    intro x hx
    rcases List.mem_append.mp hx with h | h
    · rw [hA x h]; omega
    · rw [hB x h]
  have hABC : ∀ x ∈ A ++ B ++ C, updateRank x ≤ 2 := by
    intro x hx
    rcases List.mem_append.mp hx with h | h
    · exact Nat.le_trans (hAB x h) (by omega)
    · rw [hC x h]
  have hABCD : ∀ x ∈ A ++ B ++ C ++ D, updateRank x ≤ 3 := by
    intro x hx
    rcases List.mem_append.mp hx with h | h
    · exact Nat.le_trans (hABC x h) (by omega)
    · rw [hD x h]
  simp only [List.pairwise_append]
  refine ⟨⟨⟨⟨hconst A 0 hA, hconst B 1 hB, ?_⟩, hconst C 2 hC, ?_⟩,
    hconst D 3 hD, ?_⟩, hconst E 4 hE, ?_⟩
  · intro a ha b hb
    rw [hA a ha, hB b hb]
    omega
  · intro a ha b hb
    rw [hC b hb]
    exact Nat.le_trans (hAB a ha) (by omega)
  · intro a ha b hb
    rw [hD b hb]
    exact Nat.le_trans (hABC a ha) (by omega)
  · intro a ha b hb
    rw [hE b hb]
    exact updateRank_le_four a

/-- C6: within one tick, the update batch `computeUpdates` emits for a
connection is ordered by kind — every `agent_update` precedes every
`message_event`, which precedes every `merge_update`, which precedes
every `tool_event`, which precedes the `metrics_update` — and the batch
contains at most one `metrics_update`. -/
theorem C6_fixed_emission_order (smoothed : Rat) (v : SourceView) (state : ClientState) :
    (computeUpdates smoothed v state).1.Pairwise
      (fun a b => updateRank a ≤ updateRank b) ∧
    (computeUpdates smoothed v state).1.countP isMetricsUpdate ≤ 1 := by
  have hshape : (computeUpdates smoothed v state).1 =
      (v.querySessions.map toAgent).filterMap (fun agent =>
        match alistGet state.agentStateMap agent.name with
        | none => some (StateUpdate.agent_update agent)
        | some prev =>
          if prev ≠ agentKey agent then some (StateUpdate.agent_update agent) else none) ++
      (if state.lastMessageTimestamp ≠ "" then
          (v.queryNewMessages state.lastMessageTimestamp).map toAgentMessage
        else []).map StateUpdate.message_event ++
      (v.queryMergeQueue.map toVizMergeEntry).filterMap (fun entry =>
        match alistGet state.mergeStatusMap entry.branchName with
        | none => some (StateUpdate.merge_update entry)
        | some prev =>
          if prev ≠ entry.status then some (StateUpdate.merge_update entry) else none) ++
      (v.queryNewEvents state.lastEventId).map StateUpdate.tool_event ++
      (if metricsKey (computeMetrics v.querySessions v.queryMessageCount
            v.queryMetricsSessions smoothed) ≠ state.metricsKey then
          [StateUpdate.metrics_update (computeMetrics v.querySessions v.queryMessageCount
            v.queryMetricsSessions smoothed)]
        else []) := rfl
  have hA : ∀ x ∈ (v.querySessions.map toAgent).filterMap (fun agent =>
      match alistGet state.agentStateMap agent.name with
      | none => some (StateUpdate.agent_update agent)
      | some prev =>
        if prev ≠ agentKey agent then some (StateUpdate.agent_update agent) else none),
      updateRank x = 0 := by
    intro x hx
    obtain ⟨a, rfl⟩ := mem_agentSegment hx
    rfl
  have hB : ∀ x ∈ (if state.lastMessageTimestamp ≠ "" then
        (v.queryNewMessages state.lastMessageTimestamp).map toAgentMessage
      else []).map StateUpdate.message_event, updateRank x = 1 := by
    intro x hx
    obtain ⟨msg, _, rfl⟩ := List.mem_map.mp hx
    rfl
  have hC : ∀ x ∈ (v.queryMergeQueue.map toVizMergeEntry).filterMap (fun entry =>
      match alistGet state.mergeStatusMap entry.branchName with
      | none => some (StateUpdate.merge_update entry)
      | some prev =>
        if prev ≠ entry.status then some (StateUpdate.merge_update entry) else none),
      updateRank x = 2 := by
    intro x hx
    obtain ⟨e, rfl⟩ := mem_mergeSegment hx
    rfl
  have hD : ∀ x ∈ (v.queryNewEvents state.lastEventId).map StateUpdate.tool_event,
      updateRank x = 3 := by
    intro x hx
    obtain ⟨evt, _, rfl⟩ := List.mem_map.mp hx
    rfl
  have hE : ∀ x ∈ (if metricsKey (computeMetrics v.querySessions v.queryMessageCount
        v.queryMetricsSessions smoothed) ≠ state.metricsKey then
        [StateUpdate.metrics_update (computeMetrics v.querySessions v.queryMessageCount
          v.queryMetricsSessions smoothed)]
      else []), updateRank x = 4 := by
    intro x hx
    by_cases hcond : metricsKey (computeMetrics v.querySessions v.queryMessageCount
        v.queryMetricsSessions smoothed) ≠ state.metricsKey
    · rw [if_pos hcond] at hx
      obtain rfl : x = StateUpdate.metrics_update _ := by simpa using hx
      rfl
    · rw [if_neg hcond] at hx
      cases hx
  rw [hshape]
  constructor
  · exact pairwise_rank_five hA hB hC hD hE
  · have rank_not_metrics : ∀ (x : StateUpdate) (i : Nat), i ≠ 4 → updateRank x = i →
        ¬(isMetricsUpdate x = true) := by
      intro x i hi hr
      cases x <;> simp_all [updateRank, isMetricsUpdate]
    simp only [List.countP_append]
    have c0 := List.countP_eq_zero.mpr (fun x hx => rank_not_metrics x 0 (by omega) (hA x hx))
    have c1 := List.countP_eq_zero.mpr (fun x hx => rank_not_metrics x 1 (by omega) (hB x hx))
    have c2 := List.countP_eq_zero.mpr (fun x hx => rank_not_metrics x 2 (by omega) (hC x hx))
    have c3 := List.countP_eq_zero.mpr (fun x hx => rank_not_metrics x 3 (by omega) (hD x hx))
    have c4 : (if metricsKey (computeMetrics v.querySessions v.queryMessageCount
          v.queryMetricsSessions smoothed) ≠ state.metricsKey then
          [StateUpdate.metrics_update (computeMetrics v.querySessions v.queryMessageCount
            v.queryMetricsSessions smoothed)]
        else []).countP isMetricsUpdate ≤ 1 := by
      split
      · exact Nat.le_trans (List.countP_le_length isMetricsUpdate) (by simp)
      · simp
    omega

end SwarmViz
